import Mathlib

/-!
Verification development for the command-safety-and-execution engine of
`prompt2shell` (`src/prompt2shell/command_helper.py` and the safe-mode gate of
`src/prompt2shell/application.py`).

The Python code is shallowly embedded:
* the regular-expression based classifiers (`detect_destructive_command`,
  `detect_non_readonly_command`) and the redaction pass
  (`redact_sensitive_text`) are embedded via a small backtracking regex engine
  (`Rgx`, `mrun`) whose candidate order mirrors Python's `re` backtracking
  (leftmost position, alternatives left to right, greedy stars);
* `shlex.split(..., posix=True)` is embedded as a character state machine;
* `run_shell_command` / `_terminate_process_tree` are embedded as pure
  functions over oracles for the nondeterministic events (wait outcome,
  platform, kill race), plus an event trace for ordering properties;
* the `_guard_command_with_safe_mode` loop is embedded as a recursive function
  consuming a script of user responses.

Strings are treated as lists of characters; ASCII semantics are used for the
character classes (`\s`, `\w`, case folding), which covers the classifier and
redaction rule tables, all of which are ASCII.
-/

/-! ## Character classes and Python string helpers -/

/-- Whitespace recognised by Python's `str.strip()` and by `re`'s `\s`
(ASCII range): space, tab, newline, carriage return, vertical tab, form feed. -/
def isPyWs (c : Char) : Bool :=
  c = ' ' || c = '\t' || c = '\n' || c = '\x0d' || c = '\x0b' || c = '\x0c'

/-- Word characters of `re`'s `\w` / `\b` (ASCII range). -/
def isWordC (c : Char) : Bool :=
  c.isAlphanum || c = '_'

/-- Python `str.strip()` on a character list. -/
def pyStrip (l : List Char) : List Char :=
  ((l.dropWhile isPyWs).reverse.dropWhile isPyWs).reverse

/-- `pat` is a literal prefix of `hay`. -/
def isPrefixB : List Char → List Char → Bool
  | [], _ => true
  | _ :: _, [] => false
  | a :: as, b :: bs => a = b && isPrefixB as bs

/-- Python's substring test `pat in hay`. -/
def hasInfix : List Char → List Char → Bool
  | [], pat => isPrefixB pat []
  | c :: t, pat => isPrefixB pat (c :: t) || hasInfix t pat

/-- Python `str.split(sep)` for a one-character separator (splits at every
occurrence, keeping empty parts). -/
def pySplitOn (sep : Char) (l : List Char) : List (List Char) :=
  l.splitOn sep

/-! ## A backtracking regex engine

`mrun fuel r prev inp` returns the list of ways `r` can match a prefix of
`inp`, in the priority order used by Python's `re` backtracking matcher:
alternatives left to right, stars greedy (longest continuation first).
`prev` is the character immediately before the current position (`none` at the
start of the subject string); it drives `\b` and `^`.  Each candidate records
the character preceding the remainder (`prev`), the unconsumed remainder
(`rest`) and the captured groups (`caps`).  `fuel` decreases on every
recursive call (so the definition is structural and evaluates by reduction);
`mfuel` below computes a budget that is always sufficient, because descending
into subexpressions is bounded by the pattern size and every starred body in
the rule tables consumes at least one character per iteration. -/

structure Cand where
  prev : Option Char
  rest : List Char
  caps : List (Nat × List Char)
  deriving Repr, DecidableEq

inductive Rgx where
  | eps
  | cls (p : Char → Bool)
  | seq (a b : Rgx)
  | alt (a b : Rgx)
  | star (a : Rgx)
  | wordB
  | bos
  | eos
  | look (a : Rgx)
  | grp (n : Nat) (a : Rgx)

/-- Candidates of a single-character class `[...]`. -/
def clsCands (p : Char → Bool) : List Char → List Cand
  | [] => []
  | c :: t => if p c then [⟨some c, t, []⟩] else []

/-- Whether an optional preceding character is a word character. -/
def isWordOpt : Option Char → Bool
  | none => false
  | some c => isWordC c

/-- Whether the next character (if any) is a word character. -/
def headIsWord : List Char → Bool
  | [] => false
  | c :: _ => isWordC c

/-- Candidates of the zero-width `\b` assertion. -/
def wordBCands (prev : Option Char) (inp : List Char) : List Cand :=
  if isWordOpt prev != headIsWord inp then [⟨prev, inp, []⟩] else []

/-- Candidates of `$` (end of subject, or just before a final newline). -/
def eosCands (prev : Option Char) : List Char → List Cand
  | [] => [⟨prev, [], []⟩]
  | ['\n'] => [⟨prev, ['\n'], []⟩]
  | _ => []

def mrun : Nat → Rgx → Option Char → List Char → List Cand
  | 0, _, _, _ => []
  | _ + 1, .eps, prev, inp => [⟨prev, inp, []⟩]
  | _ + 1, .cls p, _, inp => clsCands p inp
  | f + 1, .seq a b, prev, inp =>
    (mrun f a prev inp).flatMap (fun c1 =>
      (mrun f b c1.prev c1.rest).map (fun c2 => ⟨c2.prev, c2.rest, c1.caps ++ c2.caps⟩))
  | f + 1, .alt a b, prev, inp => mrun f a prev inp ++ mrun f b prev inp
  | f + 1, .star a, prev, inp =>
    (mrun f a prev inp).flatMap (fun c1 =>
      if c1.rest.length < inp.length then
        (mrun f (.star a) c1.prev c1.rest).map
          (fun c2 => ⟨c2.prev, c2.rest, c1.caps ++ c2.caps⟩)
      else []) ++ [⟨prev, inp, []⟩]
  | _ + 1, .wordB, prev, inp => wordBCands prev inp
  | _ + 1, .bos, prev, inp => if prev.isNone then [⟨prev, inp, []⟩] else []
  | _ + 1, .eos, prev, inp => eosCands prev inp
  | f + 1, .look a, prev, inp =>
    if (mrun f a prev inp).isEmpty then [] else [⟨prev, inp, []⟩]
  | f + 1, .grp n a, prev, inp =>
    (mrun f a prev inp).map (fun c =>
      ⟨c.prev, c.rest, (n, inp.take (inp.length - c.rest.length)) :: c.caps⟩)

/-- Structural size of a pattern, used to compute a sufficient fuel budget. -/
def rsize : Rgx → Nat
  | .eps => 1
  | .cls _ => 1
  | .seq a b => rsize a + rsize b + 1
  | .alt a b => rsize a + rsize b + 1
  | .star a => rsize a + 1
  | .wordB => 1
  | .bos => 1
  | .eos => 1
  | .look a => rsize a + 1
  | .grp _ a => rsize a + 1

/-- A fuel budget sufficient for matching `r` against (a suffix of) `l`:
every chain of fuel-consuming steps either descends into the pattern
(bounded by `rsize r`) or re-enters a star after consuming at least one
character (bounded by `l.length`). -/
def mfuel (r : Rgx) (l : List Char) : Nat :=
  (rsize r + 2) * (l.length + 2)

/-- `re.search` scan: try to match at every position, left to right. -/
def scanB (fuel : Nat) (r : Rgx) : Option Char → List Char → Bool
  | prev, [] => !(mrun fuel r prev []).isEmpty
  | prev, c :: t => !(mrun fuel r prev (c :: t)).isEmpty || scanB fuel r (some c) t

/-- Whether `r` matches somewhere in `l` (Python `pattern.search(l)`). -/
def searchB (r : Rgx) (l : List Char) : Bool :=
  scanB (mfuel r l) r none l

/-- The global-substitution worker of `re.sub`: scan left to right, replace
each non-overlapping leftmost match using `repl` applied to its captures, and
resume after the match.  `gas` bounds the recursion (input length suffices
because every pattern substituted below consumes at least one character). -/
def subRun (fuel : Nat) (r : Rgx) (repl : List (Nat × List Char) → List Char) :
    Nat → Option Char → List Char → List Char
  | 0, _, inp => inp
  | gas + 1, prev, inp =>
    match (mrun fuel r prev inp).head? with
    | some c =>
      if inp.length - c.rest.length = 0 then
        match inp with
        | [] => repl c.caps
        | ch :: t => repl c.caps ++ ch :: subRun fuel r repl gas (some ch) t
      else
        repl c.caps ++ subRun fuel r repl gas c.prev c.rest
    | none =>
      match inp with
      | [] => []
      | ch :: t => ch :: subRun fuel r repl gas (some ch) t

/-- Python `re.sub(r, repl, l)`. -/
def subAll (r : Rgx) (repl : List (Nat × List Char) → List Char) (l : List Char) : List Char :=
  subRun (mfuel r l) r repl (l.length + 1) none l

/-! ### Pattern constructors mirroring the regex syntax -/

def lit1 (c : Char) : Rgx := .cls (fun d => d = c)

def lit1ci (c : Char) : Rgx := .cls (fun d => d.toLower = c.toLower)

def litl : List Char → Rgx
  | [] => .eps
  | c :: t => .seq (lit1 c) (litl t)

def litlci : List Char → Rgx
  | [] => .eps
  | c :: t => .seq (lit1ci c) (litlci t)

/-- Case-sensitive literal. -/
def lit (s : String) : Rgx := litl s.data

/-- Case-insensitive literal (for patterns compiled with `re.IGNORECASE`). -/
def litci (s : String) : Rgx := litlci s.data

/-- `(...)?` (greedy: presence tried first). -/
def opt (a : Rgx) : Rgx := .alt a .eps

/-- `...+` (greedy). -/
def plus (a : Rgx) : Rgx := .seq a (.star a)

/-- Alternation `r1|r2|...` in the given order. -/
def altl : List Rgx → Rgx
  | [] => .cls (fun _ => false)
  | [r] => r
  | r :: t => .alt r (altl t)

/-- Sequence of subpatterns. -/
def seql : List Rgx → Rgx
  | [] => .eps
  | [r] => r
  | r :: t => .seq r (seql t)

/-- `a{n}`: exactly `n` copies. -/
def repn : Nat → Rgx → Rgx
  | 0, _ => .eps
  | n + 1, a => .seq a (repn n a)

/-- `a{n,}`: at least `n` copies (greedy). -/
def atLeast (n : Nat) (a : Rgx) : Rgx := .seq (repn n a) (.star a)

/-- `\s` -/
def wsR : Rgx := .cls isPyWs

/-- `.` (anything but a newline; no DOTALL flag is used in the source). -/
def dotR : Rgx := .cls (fun c => c ≠ '\n')

/-! ## Destructive-command patterns (`CommandHelper.DESTRUCTIVE_COMMAND_PATTERNS`)

All ten patterns are compiled with `re.IGNORECASE`.  The first nine begin with
the anchor group `(^|[;&|]\s*)`; the fork-bomb pattern has no anchor. -/

/-- `[;&|]` — the command-separator class of the anchor group. -/
def isSepC (c : Char) : Bool := c = ';' || c = '&' || c = '|'

/-- The anchor group `(^|[;&|]\s*)` shared by the first nine patterns. -/
def anchorR : Rgx := .alt .bos (.seq (.cls isSepC) (.star wsR))

/-- Body of pattern 1 after the anchor: `\s*rm\s+.*(--no-preserve-root|--preserve-root=0)\b`. -/
def dBody1 : Rgx :=
  seql [.star wsR, litci "rm", plus wsR, .star dotR,
    .alt (litci "--no-preserve-root") (litci "--preserve-root=0"), .wordB]

/-- Body of pattern 2: `\s*(sudo\s+)?rm\b(?=[^\n]*(?:\s|^)(?:-rf|-fr|--recursive|--force|-r|-f)(?:\s|$))`. -/
def dBody2 : Rgx :=
  seql [.star wsR, opt (.seq (litci "sudo") (plus wsR)), litci "rm", .wordB,
    .look (seql [.star (.cls (fun c => c ≠ '\n')), .alt wsR .bos,
      altl [litci "-rf", litci "-fr", litci "--recursive", litci "--force", litci "-r", litci "-f"],
      .alt wsR .eos])]

/-- Body of pattern 3: `\s*mkfs(\.\w+)?\b`. -/
def dBody3 : Rgx :=
  seql [.star wsR, litci "mkfs", opt (.seq (lit1 '.') (plus (.cls isWordC))), .wordB]

/-- Body of pattern 4: `\s*dd\s+.*\bof=/dev/`. -/
def dBody4 : Rgx :=
  seql [.star wsR, litci "dd", plus wsR, .star dotR, .wordB, litci "of=/dev/"]

/-- Body of pattern 5: `\s*shred\b`. -/
def dBody5 : Rgx := seql [.star wsR, litci "shred", .wordB]

/-- Body of pattern 6: `\s*wipefs\b`. -/
def dBody6 : Rgx := seql [.star wsR, litci "wipefs", .wordB]

/-- Body of pattern 7: `\s*git\s+reset\s+--hard\b`. -/
def dBody7 : Rgx :=
  seql [.star wsR, litci "git", plus wsR, litci "reset", plus wsR, litci "--hard", .wordB]

/-- Body of pattern 8: `\s*git\s+clean\s+-[^\n]*f`. -/
def dBody8 : Rgx :=
  seql [.star wsR, litci "git", plus wsR, litci "clean", plus wsR, lit1 '-',
    .star (.cls (fun c => c ≠ '\n')), lit1ci 'f']

/-- Body of pattern 9: `\s*docker\s+system\s+prune\b`. -/
def dBody9 : Rgx :=
  seql [.star wsR, litci "docker", plus wsR, litci "system", plus wsR, litci "prune", .wordB]

/-- Pattern 10 (unanchored): the fork-bomb idiom `:\(\)\s*\{\s*:\|:&\s*\};:`. -/
def dPat10 : Rgx :=
  seql [lit ":()", .star wsR, lit1 '\x7b', .star wsR, lit ":|:&", .star wsR, lit "\x7d;:"]

/-- The anchored bodies of the nine anchored patterns, in priority order. -/
def dBodies : List Rgx :=
  [dBody1, dBody2, dBody3, dBody4, dBody5, dBody6, dBody7, dBody8, dBody9]

/-- `DESTRUCTIVE_COMMAND_PATTERNS`: compiled pattern and reason, in priority order. -/
def destructivePatterns : List (Rgx × String) :=
  [(.seq anchorR dBody1, "rm with preserve-root disabled"),
   (.seq anchorR dBody2, "rm with recursive/force options"),
   (.seq anchorR dBody3, "filesystem format command"),
   (.seq anchorR dBody4, "dd write to block device"),
   (.seq anchorR dBody5, "secure delete command"),
   (.seq anchorR dBody6, "filesystem wipe command"),
   (.seq anchorR dBody7, "git hard reset"),
   (.seq anchorR dBody8, "git clean with force"),
   (.seq anchorR dBody9, "docker prune"),
   (dPat10, "fork bomb pattern")]

/-- `CommandHelper.detect_destructive_command` on a string input: strip, then
return the reason of the first pattern whose `search` succeeds. -/
def detectDestructiveL (l : List Char) : Option String :=
  let n := pyStrip l
  if n.isEmpty then none
  else destructivePatterns.findSome? (fun pr => if searchB pr.1 n then some pr.2 else none)

def detectDestructiveS (s : String) : Option String := detectDestructiveL s.data

/-! ## Redaction patterns (`CommandHelper.redact_sensitive_text`) -/

/-- `[A-Za-z0-9\-._~+/]` — the bearer-token value class. -/
def isTokC (c : Char) : Bool :=
  c.isAlphanum || c = '-' || c = '.' || c = '_' || c = '~' || c = '+' || c = '/'

/-- `[A-Z0-9_]` under `re.IGNORECASE` — the key-name class. -/
def isKeyC (c : Char) : Bool := c.isAlphanum || c = '_'

/-- `\s*[:=]\s*` — the key/value separator (captured as group 2). -/
def sepKV : Rgx :=
  seql [.star wsR, .cls (fun c => c = ':' || c = '='), .star wsR]

/-- Pass 1: `(?i)\b(Authorization)\b(\s*[:=]\s*)Bearer\s+[A-Za-z0-9\-._~+/]+=*`. -/
def rPat1 : Rgx :=
  seql [.wordB, .grp 1 (litci "Authorization"), .wordB, .grp 2 sepKV,
    litci "Bearer", plus wsR, plus (.cls isTokC), .star (lit1 '=')]

/-- Replacement of pass 1: `\1\2Bearer <REDACTED>`. -/
def rRep1 (caps : List (Nat × List Char)) : List Char :=
  ((caps.lookup 1).getD []) ++ ((caps.lookup 2).getD []) ++ "Bearer <REDACTED>".data

/-- Pass 2: `(?i)\b([A-Z0-9_]*(?:API[_-]?KEY|TOKEN|SECRET|PASSWORD|PASSWD)[A-Z0-9_]*)\b(\s*[:=]\s*)([^\s"']+|"[^"]*"|'[^']*')`. -/
def rPat2 : Rgx :=
  seql [.wordB,
    .grp 1 (seql [.star (.cls isKeyC),
      altl [seql [litci "API", opt (.cls (fun c => c = '_' || c = '-')), litci "KEY"],
        litci "TOKEN", litci "SECRET", litci "PASSWORD", litci "PASSWD"],
      .star (.cls isKeyC)]),
    .wordB, .grp 2 sepKV,
    .grp 3 (altl [plus (.cls (fun c => !isPyWs c && c ≠ '"' && c ≠ '\x27')),
      seql [lit1 '"', .star (.cls (fun c => c ≠ '"')), lit1 '"'],
      seql [lit1 '\x27', .star (.cls (fun c => c ≠ '\x27')), lit1 '\x27']])]

/-- Replacement of pass 2: `\1\2<REDACTED>`. -/
def rRep2 (caps : List (Nat × List Char)) : List Char :=
  ((caps.lookup 1).getD []) ++ ((caps.lookup 2).getD []) ++ "<REDACTED>".data

/-- Pass 3: `(?i)\b(Bearer)\s+[A-Za-z0-9\-._~+/]+=*`. -/
def rPat3 : Rgx :=
  seql [.wordB, .grp 1 (litci "Bearer"), plus wsR, plus (.cls isTokC), .star (lit1 '=')]

/-- Replacement of pass 3: `\1 <REDACTED>`. -/
def rRep3 (caps : List (Nat × List Char)) : List Char :=
  ((caps.lookup 1).getD []) ++ " <REDACTED>".data

/-- Pass 4: `\bsk-[A-Za-z0-9]{12,}\b` (case-sensitive). -/
def rPat4 : Rgx :=
  seql [.wordB, lit "sk-", atLeast 12 (.cls Char.isAlphanum), .wordB]

def rRep4 (_ : List (Nat × List Char)) : List Char := "<REDACTED_OPENAI_KEY>".data

/-- Pass 5: `\beyJ[A-Za-z0-9_-]{10,}\.[A-Za-z0-9._-]+\.[A-Za-z0-9._-]+\b`. -/
def rPat5 : Rgx :=
  seql [.wordB, lit "eyJ", atLeast 10 (.cls (fun c => c.isAlphanum || c = '_' || c = '-')),
    lit1 '.', plus (.cls (fun c => c.isAlphanum || c = '.' || c = '_' || c = '-')),
    lit1 '.', plus (.cls (fun c => c.isAlphanum || c = '.' || c = '_' || c = '-')), .wordB]

def rRep5 (_ : List (Nat × List Char)) : List Char := "<REDACTED_JWT>".data

/-- Pass 6: `\bAKIA[0-9A-Z]{16}\b`. -/
def rPat6 : Rgx :=
  seql [.wordB, lit "AKIA", repn 16 (.cls (fun c => c.isDigit || c.isUpper)), .wordB]

def rRep6 (_ : List (Nat × List Char)) : List Char := "<REDACTED_AWS_ACCESS_KEY_ID>".data

/-- The six substitution passes of `redact_sensitive_text`, applied in order. -/
def redactL (l : List Char) : List Char :=
  subAll rPat6 rRep6 (subAll rPat5 rRep5 (subAll rPat4 rRep4
    (subAll rPat3 rRep3 (subAll rPat2 rRep2 (subAll rPat1 rRep1 l)))))

/-- `CommandHelper.redact_sensitive_text` on a string (the `text == ""` guard
returns the input unchanged; the non-string guard is modelled by `PyInput`
wrappers below where needed). -/
def redactS (s : String) : String :=
  if s = "" then s else (redactL s.data).asString

/-! ## `shlex.split(segment, posix=True)`

State machine following CPython's `shlex` in POSIX mode with
`whitespace_split=True`: whitespace `' '`, `'\t'`, `'\r'`, `'\n'`; quotes
`'` and `"`; escape `\`.  Outside quotes `\` escapes any single character;
inside double quotes `\` escapes only `\` and `"` (otherwise the backslash is
kept).  An unterminated quote ("No closing quotation") or a trailing escape
("No escaped character") raises `ValueError`, modelled as `none`. -/

/-- `shlex.whitespace` (note: narrower than Python's `str.strip()` set). -/
def isShlexWs (c : Char) : Bool :=
  c = ' ' || c = '\t' || c = '\x0d' || c = '\n'

inductive ShState where
  | out      -- between tokens
  | tok      -- inside an unquoted token
  | sq       -- inside single quotes
  | dq       -- inside double quotes
  | escT     -- after `\` outside quotes
  | escQ     -- after `\` inside double quotes
  deriving Repr, DecidableEq

/-- One shlex step per input character; `cur` is the token under construction
(reversed).  A token exists whenever the state is not `out`, which also covers
the empty tokens produced by `\'\'` / `""`. -/
def shlexRun : List Char → ShState → List Char → List (List Char) →
    Option (List (List Char))
  | [], st, cur, acc =>
    match st with
    | .out => some acc.reverse
    | .tok => some (cur.reverse :: acc).reverse
    | .sq => none
    | .dq => none
    | .escT => none
    | .escQ => none
  | c :: t, st, cur, acc =>
    match st with
    | .out =>
      if isShlexWs c then shlexRun t .out [] acc
      else if c = '\x27' then shlexRun t .sq cur acc
      else if c = '"' then shlexRun t .dq cur acc
      else if c = '\\' then shlexRun t .escT cur acc
      else shlexRun t .tok (c :: cur) acc
    | .tok =>
      if isShlexWs c then shlexRun t .out [] (cur.reverse :: acc)
      else if c = '\x27' then shlexRun t .sq cur acc
      else if c = '"' then shlexRun t .dq cur acc
      else if c = '\\' then shlexRun t .escT cur acc
      else shlexRun t .tok (c :: cur) acc
    | .sq =>
      if c = '\x27' then shlexRun t .tok cur acc
      else shlexRun t .sq (c :: cur) acc
    | .dq =>
      if c = '"' then shlexRun t .tok cur acc
      else if c = '\\' then shlexRun t .escQ cur acc
      else shlexRun t .dq (c :: cur) acc
    | .escT => shlexRun t .tok (c :: cur) acc
    | .escQ =>
      if c = '\\' || c = '"' then shlexRun t .dq (c :: cur) acc
      else shlexRun t .dq (c :: '\\' :: cur) acc

/-- `shlex.split(l, posix=True)`; `none` models the `ValueError` raised on
an unbalanced quote or a trailing escape. -/
def shlexSplit (l : List Char) : Option (List (List Char)) :=
  shlexRun l .out [] []

/-! ## `_extract_executable` and `detect_non_readonly_command` -/

/-- Helper for `_is_env_assignment`: the tail after `NAME=` must match `.*$`
(no interior newline; at most one trailing newline). -/
def envTailOk (t : List Char) : Bool :=
  match t.reverse with
  | '\n' :: r => r.all (fun c => c ≠ '\n')
  | _ => t.all (fun c => c ≠ '\n')

/-- `CommandHelper._is_env_assignment`: `re.match(r"^[A-Za-z_][A-Za-z0-9_]*=.*$", token)`.
The character after the identifier must be `=` (the identifier star is
deterministic because `=` is not an identifier character). -/
def isEnvAssignB (tok : List Char) : Bool :=
  match tok with
  | c :: t =>
    if c.isAlpha || c = '_' then
      match t.dropWhile (fun d => d.isAlphanum || d = '_') with
      | '=' :: rest => envTailOk rest
      | _ => false
    else false
  | [] => false

/-- `os.path.basename` (POSIX): everything after the last `/`. -/
def basenameL (l : List Char) : List Char :=
  (l.reverse.takeWhile (fun c => c ≠ '/')).reverse

/-- Result of `CommandHelper._extract_executable` on one pipe segment. -/
inductive ExtractR where
  | err (msg : String)
  | ok (exec : List Char) (args : List (List Char))
  deriving Repr, DecidableEq

/-- `CommandHelper._extract_executable`: tokenize, skip leading `NAME=value`
tokens, take the basename of the first remaining token. -/
def extractExecutable (segment : List Char) : ExtractR :=
  match shlexSplit segment with
  | none => .err "unable to parse command segment"
  | some tokens =>
    if tokens.isEmpty then .err "empty command segment"
    else
      match tokens.dropWhile isEnvAssignB with
      | [] => .err "missing executable"
      | t0 :: rest => .ok (basenameL t0) rest

/-- `STRICT_SAFE_MODE_READ_ONLY_COMMANDS`. -/
def readOnlyAllowlist : List String :=
  ["basename", "cat", "cut", "date", "df", "diff", "dirname", "du", "echo", "env",
   "file", "find", "git", "grep", "head", "hostname", "id", "jq", "less", "ls",
   "md5sum", "nl", "printf", "ps", "pwd", "readlink", "realpath", "rg", "sed",
   "sha1sum", "sha256sum", "sort", "stat", "tail", "tee", "tr", "uname", "uniq",
   "wc", "whoami"]

/-- `STRICT_SAFE_MODE_READ_ONLY_GIT_SUBCOMMANDS`. -/
def readOnlyGitSubcommands : List String :=
  ["branch", "diff", "log", "remote", "rev-parse", "show", "status", "tag"]

/-- `STRICT_SAFE_MODE_FORBIDDEN_FIND_FLAGS`, listed in the lexicographic order
produced by `sorted(...)` so that the first present element is `sorted(forbidden)[0]`. -/
def forbiddenFindFlagsSorted : List String :=
  ["-delete", "-exec", "-execdir", "-fls", "-fprint", "-fprint0", "-fprintf",
   "-ok", "-okdir"]

/-- Lowercase a character list (Python `str.lower()`, ASCII). -/
def lowerL (l : List Char) : List Char := l.map Char.toLower

/-- The per-segment checks of the `for segment in ...` loop body of
`detect_non_readonly_command`; `some msg` is an early `return msg`. -/
def segCheck (segment : List Char) : Option String :=
  match extractExecutable segment with
  | .err msg => some msg
  | .ok exec args =>
    let lexec := lowerL exec
    if !(readOnlyAllowlist.any (fun a => a.data = lexec)) then
      some ("command `" ++ exec.asString ++ "` is not in strict read-only allowlist")
    else if lexec = "find".data then
      match forbiddenFindFlagsSorted.find? (fun f => args.any (fun a => lowerL a = f.data)) with
      | some f => some ("find flag `" ++ f ++ "` is blocked in strict safe mode")
      | none => none
    else if lexec = "sed".data then
      let la := args.map lowerL
      if la.any (fun a => a = "-i".data || isPrefixB "-i".data a ||
          a = "--in-place".data || isPrefixB "--in-place=".data a) then
        some "sed in-place editing is blocked in strict safe mode"
      else none
    else if lexec = "tee".data then
      if !args.isEmpty then some "tee file output is blocked in strict safe mode" else none
    else if lexec = "git".data then
      match args with
      | [] => some "git requires an explicit read-only subcommand in strict safe mode"
      | a0 :: _ =>
        if !(readOnlyGitSubcommands.any (fun g => g.data = lowerL a0)) then
          some ("git subcommand `" ++ a0.asString ++ "` is not read-only")
        else none
    else none

/-- First violation over the stripped pipe segments, in order. -/
def firstViolation : List (List Char) → Option String
  | [] => none
  | seg :: rest =>
    match segCheck seg with
    | some msg => some msg
    | none => firstViolation rest

/-- The six structural rejections checked on the stripped command before any
segment tokenization, with their messages, as one guard: newline; chaining
operators `&&`, `||`, `;`; substitution `` ` `` or `$(`; `|&`; `>`;
`<&`, `<>`, `<<`. -/
def hasStrictTrigger (n : List Char) : Bool :=
  hasInfix n "\n".data ||
  (hasInfix n "&&".data || hasInfix n "||".data || hasInfix n ";".data) ||
  (hasInfix n "`".data || hasInfix n "$(".data) ||
  hasInfix n "|&".data ||
  hasInfix n ">".data ||
  (hasInfix n "<&".data || hasInfix n "<>".data || hasInfix n "<<".data)

/-- `CommandHelper.detect_non_readonly_command` on a string input. -/
def detectNonReadonlyL (l : List Char) : Option String :=
  let n := pyStrip l
  if n.isEmpty then some "empty command"
  else if hasInfix n "\n".data then
    some "multiline commands are blocked in strict safe mode"
  else if hasInfix n "&&".data || hasInfix n "||".data || hasInfix n ";".data then
    some "command chaining operators are blocked in strict safe mode"
  else if hasInfix n "`".data || hasInfix n "$(".data then
    some "command substitution is blocked in strict safe mode"
  else if hasInfix n "|&".data then
    some "stderr pipe redirection is blocked in strict safe mode"
  else if hasInfix n ">".data then
    some "output redirection is blocked in strict safe mode"
  else if hasInfix n "<&".data || hasInfix n "<>".data || hasInfix n "<<".data then
    some "advanced redirection is blocked in strict safe mode"
  else firstViolation ((pySplitOn '|' n).map pyStrip)

def detectNonReadonlyS (s : String) : Option String := detectNonReadonlyL s.data

/-! ## Duck-typed inputs

`detect_destructive_command` and `detect_non_readonly_command` both start with
an `isinstance(command, str)` check; `PyInput` models a value that is either a
string or some non-string object. -/

inductive PyInput where
  | str (s : String)
  | nonStr
  deriving Repr, DecidableEq

/-- `CommandHelper.detect_destructive_command` including the type guard. -/
def detectDestructiveCmd : PyInput → Option String
  | .str s => detectDestructiveS s
  | .nonStr => none

/-- `CommandHelper.detect_non_readonly_command` including the type guard. -/
def detectNonReadonlyCmd : PyInput → Option String
  | .str s => detectNonReadonlyS s
  | .nonStr => some "empty command"

/-! ## `_command_timeout_seconds` -/

/-- Digit-run of Python `int(str)` after the first digit: single underscores
are allowed between digits. -/
def pyDigitsGo : Nat → List Char → Option Nat
  | acc, [] => some acc
  | acc, c :: t =>
    if c.isDigit then pyDigitsGo (acc * 10 + (c.toNat - 48)) t
    else if c = '_' then
      match t with
      | d :: t2 => if d.isDigit then pyDigitsGo (acc * 10 + (d.toNat - 48)) t2 else none
      | [] => none
    else none

/-- Python `int(s)` on a decimal string (ASCII digits): optional surrounding
whitespace, optional sign, then digits with optional single interior
underscores; `none` models `ValueError`. -/
def pyIntParse (s : String) : Option Int :=
  let core : List Char → Option Int := fun l =>
    match l with
    | c :: _ =>
      if c.isDigit then (pyDigitsGo 0 l).map Int.ofNat else none
    | [] => none
  match pyStrip s.data with
  | '+' :: rest => core rest
  | '-' :: rest => (core rest).map Int.neg
  | l => core l

/-- `getenv_with_legacy(primary, legacy, "300")`: the primary variable wins if
set (even if empty), else the legacy one, else the default. -/
def effectiveRawTimeout (primary legacyVal : Option String) : String :=
  match primary with
  | some v => v
  | none => match legacyVal with | some v => v | none => "300"

/-- `CommandHelper._command_timeout_seconds` as a function of the two
environment variables; `none` means no timeout (unbounded wait). -/
def commandTimeoutSeconds (primary legacyVal : Option String) : Option Int :=
  let timeout : Int :=
    match pyIntParse (effectiveRawTimeout primary legacyVal) with
    | some n => n
    | none => 300
  if timeout > 0 then some timeout else none

/-! ## `Application._guard_command_with_safe_mode`

The interactive loop is embedded as a recursion over a script of user
responses: each `session.prompt` consumes the next script entry (the action
prompt, and then the edit prompt when the action is an edit).  An exhausted
script — the loop blocked waiting for input — is modelled as `none`.  The
function's Python return value `(guarded_command, skip_reason)` is the `some`
payload. -/

structure SafetyConfig where
  enabled : Bool
  strict : Bool
  deriving Repr, DecidableEq

/-- `.strip().lower()` applied to a prompt answer. -/
def normAction (s : String) : String :=
  (lowerL (pyStrip s.data)).asString

def guardCommand (cfg : SafetyConfig) : String → List String →
    Option (Option String × Option String)
  | cand, script =>
    if cfg.enabled = false then some (some cand, none)
    else
      match (if cfg.strict then detectNonReadonlyS cand else none) with
      | some _ =>
        match script with
        | [] => none
        | a :: rest =>
          if normAction a = "e" || normAction a = "edit" then
            match rest with
            | [] => none
            | e :: rest2 =>
              let edited := (pyStrip e.data).asString
              if edited = "" then some (none, some "safe_mode_empty_after_edit")
              else guardCommand cfg edited rest2
          else some (none, some "blocked_by_strict_safe_mode")
      | none =>
        match detectDestructiveS cand with
        | none => some (some cand, none)
        | some _ =>
          match script with
          | [] => none
          | a :: rest =>
            if normAction a = "run" || normAction a = "r" then some (some cand, none)
            else if normAction a = "e" || normAction a = "edit" then
              match rest with
              | [] => none
              | e :: rest2 =>
                let edited := (pyStrip e.data).asString
                if edited = "" then some (none, some "safe_mode_empty_after_edit")
                else guardCommand cfg edited rest2
            else some (none, some "blocked_by_safe_mode")

/-! ## `run_shell_command` and `_terminate_process_tree` -/

inductive StreamId where
  | out
  | err
  deriving Repr, DecidableEq

/-- Oracle for what happens inside the `try: process.wait(...)` block: the
wait returns a code, raises `subprocess.TimeoutExpired`, or raises
`KeyboardInterrupt`; in the latter two cases the process tree is killed and
the subsequent blocking `process.wait()` reaps the given exit code. -/
inductive WaitOutcome where
  | normal (rc : Int)
  | timedOut (rcAfterKill : Int)
  | interrupted (rcAfterKill : Int)
  deriving Repr, DecidableEq

inductive RunEvent where
  | spawn
  | readerStart (s : StreamId)
  | waitReturn
  | forcedKill
  | reapReturn
  | readerJoin (s : StreamId)
  | composeRecord
  deriving Repr, DecidableEq

/-- The dictionary returned by `run_shell_command`. -/
structure ExecutionRecord where
  command : String
  stdout : String
  stderr : String
  returncode : Option Int
  timed_out : Bool
  interrupted : Bool
  deriving Repr, DecidableEq

/-- `CommandHelper.run_shell_command`, parametrised by the lines the two
stream readers accumulate and the wait outcome.  Returns the ordered event
trace (spawn, reader starts, wait/kill/reap, the joins performed in the
`finally` block, record composition) together with the record. -/
def runShellCommand (command : String) (outLines errLines : List String)
    (w : WaitOutcome) : List RunEvent × ExecutionRecord :=
  let waitEvents : List RunEvent :=
    match w with
    | .normal _ => [.waitReturn]
    | .timedOut _ => [.forcedKill, .reapReturn]
    | .interrupted _ => [.forcedKill, .reapReturn]
  let rc : Int :=
    match w with
    | .normal v => v
    | .timedOut v => v
    | .interrupted v => v
  let record : ExecutionRecord :=
    { command := command
      stdout := redactS (String.join outLines)
      stderr := redactS (String.join errLines)
      returncode := some rc
      timed_out := (match w with | .timedOut _ => true | _ => false)
      interrupted := (match w with | .interrupted _ => true | _ => false) }
  ([.spawn, .readerStart .out, .readerStart .err] ++ waitEvents ++
    [.readerJoin .out, .readerJoin .err, .composeRecord], record)

inductive OsName where
  | posix
  | nt
  | otherOS
  deriving Repr, DecidableEq

/-- Oracle for `os.killpg`: success, `ProcessLookupError` (the process died
between the poll and the signal), or another `OSError`. -/
inductive KillpgR where
  | ok
  | lookupErr
  | osErr
  deriving Repr, DecidableEq

structure ProcModel where
  pollResult : Option Int
  osName : OsName
  killpg : KillpgR
  deriving Repr, DecidableEq

/-- What `_terminate_process_tree` did.  The function itself never raises:
`ProcessLookupError` is caught and swallowed (`lookupSwallowed`), any other
`OSError` falls back to `process.kill()` (`fallbackKill`). -/
inductive TermOutcome where
  | alreadyExited
  | groupKilled
  | lookupSwallowed
  | fallbackKill
  | taskkill
  | directKill
  deriving Repr, DecidableEq

/-- `CommandHelper._terminate_process_tree`. -/
def terminateProcessTree (p : ProcModel) : TermOutcome :=
  if p.pollResult.isSome then .alreadyExited
  else
    match p.osName with
    | .posix =>
      match p.killpg with
      | .ok => .groupKilled
      | .lookupErr => .lookupSwallowed
      | .osErr => .fallbackKill
    | .nt => .taskkill
    | .otherOS => .directKill

/-! ## Claims about the process runner (C1, C5) -/

/-- Claim C1: every `ExecutionRecord` produced by `run_shell_command` has
exactly one of normal completion (`timed_out = false ∧ interrupted = false`),
`timed_out = true`, or `interrupted = true`; the two flags are never both set;
and `returncode` is non-null in all three cases, because after a forced kill
the process is re-waited (`process.wait()`) to collect its exit status. -/
theorem runShellCommand_exclusive_outcome :
    ∀ (cmd : String) (outL errL : List String) (w : WaitOutcome),
      (((runShellCommand cmd outL errL w).2.timed_out = false ∧
        (runShellCommand cmd outL errL w).2.interrupted = false) ∨
       ((runShellCommand cmd outL errL w).2.timed_out = true ∧
        (runShellCommand cmd outL errL w).2.interrupted = false) ∨
       ((runShellCommand cmd outL errL w).2.timed_out = false ∧
        (runShellCommand cmd outL errL w).2.interrupted = true)) ∧
      ¬((runShellCommand cmd outL errL w).2.timed_out = true ∧
        (runShellCommand cmd outL errL w).2.interrupted = true) ∧
      ((runShellCommand cmd outL errL w).2.returncode).isSome = true := by
  intro cmd outL errL w
  cases w <;> simp [runShellCommand]

/-- Claim C5: on every path of `run_shell_command` — normal exit, timeout and
interruption alike — both stream-reader joins happen strictly before the
record is composed (the joins sit in the `finally` block), and the record's
`stdout`/`stderr` are exactly the redacted concatenations of the buffers the
readers filled. -/
theorem runShellCommand_joins_before_compose :
    ∀ (cmd : String) (outL errL : List String) (w : WaitOutcome),
      ∃ pre : List RunEvent,
        (runShellCommand cmd outL errL w).1 = pre ++ [RunEvent.composeRecord] ∧
        RunEvent.readerJoin .out ∈ pre ∧
        RunEvent.readerJoin .err ∈ pre ∧
        RunEvent.composeRecord ∉ pre ∧
        (runShellCommand cmd outL errL w).2.stdout = redactS (String.join outL) ∧
        (runShellCommand cmd outL errL w).2.stderr = redactS (String.join errL) := by
  intro cmd outL errL w
  cases w with
  | normal rc =>
    exact ⟨[.spawn, .readerStart .out, .readerStart .err, .waitReturn,
      .readerJoin .out, .readerJoin .err],
      by simp [runShellCommand], by simp, by simp, by simp, rfl, rfl⟩
  | timedOut rc =>
    exact ⟨[.spawn, .readerStart .out, .readerStart .err, .forcedKill, .reapReturn,
      .readerJoin .out, .readerJoin .err],
      by simp [runShellCommand], by simp, by simp, by simp, rfl, rfl⟩
  | interrupted rc =>
    exact ⟨[.spawn, .readerStart .out, .readerStart .err, .forcedKill, .reapReturn,
      .readerJoin .out, .readerJoin .err],
      by simp [runShellCommand], by simp, by simp, by simp, rfl, rfl⟩

/-! ## Claim C6: forced termination is an idempotent no-op on a dead process -/

/-- Claim C6: `_terminate_process_tree` polls before signalling — on an
already-exited process it returns immediately without signalling — and a
`ProcessLookupError` raised by `os.killpg` is swallowed (the function returns)
rather than propagated. -/
theorem terminateProcessTree_idempotent_noop :
    ∀ p : ProcModel,
      (p.pollResult.isSome = true → terminateProcessTree p = .alreadyExited) ∧
      (p.pollResult = none → p.osName = .posix → p.killpg = .lookupErr →
        terminateProcessTree p = .lookupSwallowed) := by
  intro p
  constructor
  · intro h
    simp [terminateProcessTree, h]
  · intro h1 h2 h3
    simp [terminateProcessTree, h1, h2, h3]

/-- Witness for C6 at concrete inputs. -/
theorem terminateProcessTree_idempotent_noop_witness :
    terminateProcessTree ⟨some 0, .posix, .ok⟩ = .alreadyExited ∧
    terminateProcessTree ⟨none, .posix, .lookupErr⟩ = .lookupSwallowed :=
  ⟨(terminateProcessTree_idempotent_noop ⟨some 0, .posix, .ok⟩).1 (by decide),
   (terminateProcessTree_idempotent_noop ⟨none, .posix, .lookupErr⟩).2 rfl rfl rfl⟩

/-! ## Claim C10: the classifiers disagree on empty / non-string input -/

/-- Claim C10: on a non-string input or a string whose trimmed form is empty,
`detect_destructive_command` returns `None` (Clear) while
`detect_non_readonly_command` returns `"empty command"`; neither raises
(both are total functions here). -/
theorem classifiers_disagree_on_empty :
    ∀ inp : PyInput,
      (inp = .nonStr ∨ ∃ s, inp = .str s ∧ pyStrip s.data = []) →
      detectDestructiveCmd inp = none ∧
      detectNonReadonlyCmd inp = some "empty command" := by
  intro inp h
  rcases h with h | ⟨s, rfl, hs⟩
  · subst h
    exact ⟨rfl, rfl⟩
  · constructor
    · simp [detectDestructiveCmd, detectDestructiveS, detectDestructiveL, hs]
    · simp [detectNonReadonlyCmd, detectNonReadonlyS, detectNonReadonlyL, hs]

/-- Witness for C10 at a concrete whitespace-only string. -/
theorem classifiers_disagree_on_empty_witness :
    detectDestructiveCmd (.str "  ") = none ∧
    detectNonReadonlyCmd (.str "  ") = some "empty command" :=
  classifiers_disagree_on_empty (.str "  ") (Or.inr ⟨"  ", rfl, by decide⟩)

/-! ## Claim C3: the execution-timeout environment setting -/

/-- Counterexample for C3 as stated: an explicit value of `0` does not yield
the 300-second default; `int("0") = 0` fails the `timeout > 0` test, so the
wait becomes unbounded (`None`). -/
theorem commandTimeoutSeconds_zero_not_default :
    commandTimeoutSeconds (some "0") none = none ∧
    commandTimeoutSeconds (some "0") none ≠ some 300 := by
  exact ⟨by decide, by decide⟩

/-- Claim C3 (amended): an absent or invalid (unparsable) value yields the
300-second default; an explicitly configured integer yields that timeout when
positive and an unbounded wait when non-positive — including `0`. -/
theorem commandTimeoutSeconds_spec :
    ∀ primary legacyVal : Option String,
      (pyIntParse (effectiveRawTimeout primary legacyVal) = none →
        commandTimeoutSeconds primary legacyVal = some 300) ∧
      (∀ k : Int, pyIntParse (effectiveRawTimeout primary legacyVal) = some k →
        commandTimeoutSeconds primary legacyVal = if k > 0 then some k else none) ∧
      commandTimeoutSeconds none none = some 300 := by
  intro p l
  refine ⟨?_, ?_, by decide⟩
  · intro h
    simp [commandTimeoutSeconds, h]
  · intro k hk
    simp [commandTimeoutSeconds, hk]

/-- Witness for C3 (amended) at concrete inputs: an invalid value and a
negative value. -/
theorem commandTimeoutSeconds_spec_witness :
    commandTimeoutSeconds (some "x") none = some 300 ∧
    commandTimeoutSeconds (some "-7") none = if (-7 : Int) > 0 then some (-7) else none :=
  ⟨(commandTimeoutSeconds_spec (some "x") none).1 (by decide),
   (commandTimeoutSeconds_spec (some "-7") none).2.1 (-7) (by decide)⟩

/-! ## Claim C4: editing a flagged command to an empty string -/

/-- Counterexample for C4 as stated: the gate's terminal rejection reason for
an edit that trims to empty is the string `"safe_mode_empty_after_edit"`, not
`"empty_after_edit"` (shown here on a strict-mode flag). -/
theorem guardCommand_reason_not_empty_after_edit :
    guardCommand ⟨true, true⟩ "ls > out" ["e", " "] =
      some (none, some "safe_mode_empty_after_edit") ∧
    (some "safe_mode_empty_after_edit" : Option String) ≠ some "empty_after_edit" := by
  exact ⟨by decide, by decide⟩

/-- Claim C4 (amended): in the safe-mode gate, answering the prompt of a
flagged command with an edit whose text trims to empty always terminates the
gate with the rejection reason `safe_mode_empty_after_edit`, regardless of
whether the flag came from the strict (read-only) check or from the
destructive check. -/
theorem guardCommand_empty_edit_rejects :
    ∀ (strict : Bool) (cand a e : String) (rest : List String),
      (normAction a = "e" ∨ normAction a = "edit") →
      pyStrip e.data = [] →
      ((strict = true ∧ (detectNonReadonlyS cand).isSome = true) ∨
        ((if strict then detectNonReadonlyS cand else none) = none ∧
          (detectDestructiveS cand).isSome = true)) →
      guardCommand ⟨true, strict⟩ cand (a :: e :: rest) =
        some (none, some "safe_mode_empty_after_edit") := by
  intro strict cand a e rest ha he hf
  have hed : (pyStrip e.data).asString = "" := by rw [he]; rfl
  rcases hf with ⟨hs, hd⟩ | ⟨hn, hd⟩
  · subst hs
    obtain ⟨m, hm⟩ := Option.isSome_iff_exists.mp hd
    rcases ha with ha | ha <;> simp [guardCommand, hm, ha, hed]
  · obtain ⟨m, hm⟩ := Option.isSome_iff_exists.mp hd
    rcases ha with ha | ha <;> simp [guardCommand, hn, hm, ha, hed]

/-- Witness for C4 (amended) on a strict-mode flagged command. -/
theorem guardCommand_empty_edit_rejects_witness :
    guardCommand ⟨true, true⟩ "ls > out" ["edit", "  "] =
      some (none, some "safe_mode_empty_after_edit") :=
  guardCommand_empty_edit_rejects true "ls > out" "edit" "  " []
    (Or.inr (by decide)) (by decide) (Or.inl ⟨rfl, by decide⟩)

/-! ## Claim C2: redaction -/

set_option maxRecDepth 100000

/-- If `r` matches nowhere in the input (from the given scan state), the
substitution pass copies the input unchanged. -/
theorem subRun_id_of_no_match :
    ∀ (inp : List Char) (gas fuel : Nat) (r : Rgx)
      (repl : List (Nat × List Char) → List Char) (prev : Option Char),
      scanB fuel r prev inp = false →
      subRun fuel r repl gas prev inp = inp := by
  intro inp
  induction inp with
  | nil =>
    intro gas fuel r repl prev h
    cases gas with
    | zero => rfl
    | succ g =>
      rw [scanB] at h
      have h1 : mrun fuel r prev [] = [] := by
        cases hm : mrun fuel r prev [] with
        | nil => rfl
        | cons x xs => rw [hm] at h; simp at h
      simp [subRun, h1]
  | cons c t ih =>
    intro gas fuel r repl prev h
    rw [scanB] at h
    have h2 := Bool.or_eq_false_iff.mp h
    have h1 : mrun fuel r prev (c :: t) = [] := by
      cases hm : mrun fuel r prev (c :: t) with
      | nil => rfl
      | cons x xs => rw [hm] at h2; simp at h2
    cases gas with
    | zero => rfl
    | succ g =>
      simp [subRun, h1]
      exact ih g fuel r repl (some c) h2.2

/-- `re.sub` is the identity when the pattern has no match. -/
theorem subAll_id_of_no_search (r : Rgx) (repl : List (Nat × List Char) → List Char)
    (l : List Char) (h : searchB r l = false) : subAll r repl l = l :=
  subRun_id_of_no_match l (l.length + 1) (mfuel r l) r repl none h

/-- None of the six redaction patterns matches anywhere in `s`. -/
def noSecretMatch (s : String) : Bool :=
  !searchB rPat1 s.data && !searchB rPat2 s.data && !searchB rPat3 s.data &&
  !searchB rPat4 s.data && !searchB rPat5 s.data && !searchB rPat6 s.data

theorem asString_data (s : String) : s.data.asString = s := by
  cases s; rfl

/-- Counterexample for C2 as stated: `redact` is not idempotent.  On
`TOKEN="a"b` the first pass redacts the quoted value `"a"`, producing
`TOKEN=<REDACTED>b`; a second pass then matches the unquoted value
`<REDACTED>b` and shortens it to `TOKEN=<REDACTED>`. -/
theorem redactS_not_idempotent :
    redactS (redactS "TOKEN=\"a\"b") ≠ redactS "TOKEN=\"a\"b" ∧
    redactS "TOKEN=\"a\"b" = "TOKEN=<REDACTED>b" ∧
    redactS (redactS "TOKEN=\"a\"b") = "TOKEN=<REDACTED>" := by
  exact ⟨by decide, by decide, by decide⟩

/-- Claim C2 (amended): `redact` is not idempotent on all strings (see the
counterexample), but the rest of the claim holds: text matching no secret
pattern passes through unchanged, and `redact("Authorization: Bearer abc123")`
contains `"Bearer <REDACTED>"`, does not contain `"abc123"`, and is itself a
fixed point of `redact`. -/
theorem redactS_properties :
    (∀ s : String, noSecretMatch s = true → redactS s = s) ∧
    hasInfix (redactS "Authorization: Bearer abc123").data "Bearer <REDACTED>".data = true ∧
    hasInfix (redactS "Authorization: Bearer abc123").data "abc123".data = false ∧
    redactS (redactS "Authorization: Bearer abc123") = redactS "Authorization: Bearer abc123" := by
  refine ⟨?_, by decide, by decide, by decide⟩
  intro s h
  by_cases hs : s = ""
  · simp [redactS, hs]
  · simp only [noSecretMatch, Bool.and_eq_true, Bool.not_eq_true'] at h
    obtain ⟨⟨⟨⟨⟨h1, h2⟩, h3⟩, h4⟩, h5⟩, h6⟩ := h
    rw [redactS, if_neg hs, redactL,
      subAll_id_of_no_search _ _ _ h1, subAll_id_of_no_search _ _ _ h2,
      subAll_id_of_no_search _ _ _ h3, subAll_id_of_no_search _ _ _ h4,
      subAll_id_of_no_search _ _ _ h5, subAll_id_of_no_search _ _ _ h6,
      asString_data]

/-- Witness for the universal part of C2 (amended): a secret-free string is
returned unchanged. -/
theorem redactS_properties_witness :
    noSecretMatch "ls -la" = true ∧ redactS "ls -la" = "ls -la" :=
  ⟨by decide, redactS_properties.1 "ls -la" (by decide)⟩

/-! ## Claim C7: strict-mode structural rejections -/

/-- Counterexample for C7 as stated: `"ls\n"` contains a newline, yet it is
not rejected — the command is stripped first, so a leading/trailing newline
disappears and the command proceeds to per-segment checking (and is Clear). -/
theorem detectNonReadonly_newline_not_rejected :
    hasInfix "ls\n".data "\n".data = true ∧ detectNonReadonlyS "ls\n" = none := by
  exact ⟨by decide, by decide⟩

/-- Claim C7 (amended): every command whose *trimmed* form contains a newline,
a chaining operator (`&&`, `||`, `;`), substitution syntax (backtick or `$(`),
`|&`, an output redirection `>`, or an input-redirection form (`<&`, `<>`,
`<<`) is rejected with one of the six structural-violation messages — all
produced before any segment tokenization; `ls && pwd` is such a violation,
while `ls -la | head -n 5` reaches per-segment allowlist checking and is
Clear. -/
theorem detectNonReadonly_trigger_rejects :
    (∀ cmd : String, hasStrictTrigger (pyStrip cmd.data) = true →
      ∃ m, detectNonReadonlyL cmd.data = some m ∧
        m ∈ ["multiline commands are blocked in strict safe mode",
             "command chaining operators are blocked in strict safe mode",
             "command substitution is blocked in strict safe mode",
             "stderr pipe redirection is blocked in strict safe mode",
             "output redirection is blocked in strict safe mode",
             "advanced redirection is blocked in strict safe mode"]) ∧
    detectNonReadonlyS "ls && pwd" =
      some "command chaining operators are blocked in strict safe mode" ∧
    detectNonReadonlyS "ls -la | head -n 5" = none := by
  refine ⟨?_, by decide, by decide⟩
  intro cmd h
  by_cases h0 : (pyStrip cmd.data).isEmpty = true
  · exfalso
    have hnil : pyStrip cmd.data = [] := by
      cases he : pyStrip cmd.data with
      | nil => rfl
      | cons x xs => rw [he] at h0; simp at h0
    rw [hnil] at h
    exact absurd h (by decide)
  · by_cases h1 : hasInfix (pyStrip cmd.data) "\n".data = true
    · exact ⟨"multiline commands are blocked in strict safe mode",
        by simp [detectNonReadonlyL, h0, h1], by decide⟩
    · by_cases h2 : (hasInfix (pyStrip cmd.data) "&&".data ||
          hasInfix (pyStrip cmd.data) "||".data ||
          hasInfix (pyStrip cmd.data) ";".data) = true
      · exact ⟨"command chaining operators are blocked in strict safe mode",
          by simp [detectNonReadonlyL, h0, h1, h2], by decide⟩
      · by_cases h3 : (hasInfix (pyStrip cmd.data) "`".data ||
            hasInfix (pyStrip cmd.data) "$(".data) = true
        · exact ⟨"command substitution is blocked in strict safe mode",
            by simp [detectNonReadonlyL, h0, h1, h2, h3], by decide⟩
        · by_cases h4 : hasInfix (pyStrip cmd.data) "|&".data = true
          · exact ⟨"stderr pipe redirection is blocked in strict safe mode",
              by simp [detectNonReadonlyL, h0, h1, h2, h3, h4], by decide⟩
          · by_cases h5 : hasInfix (pyStrip cmd.data) ">".data = true
            · exact ⟨"output redirection is blocked in strict safe mode",
                by simp [detectNonReadonlyL, h0, h1, h2, h3, h4, h5], by decide⟩
            · by_cases h6 : (hasInfix (pyStrip cmd.data) "<&".data ||
                  hasInfix (pyStrip cmd.data) "<>".data ||
                  hasInfix (pyStrip cmd.data) "<<".data) = true
              · exact ⟨"advanced redirection is blocked in strict safe mode",
                  by simp [detectNonReadonlyL, h0, h1, h2, h3, h4, h5, h6], by decide⟩
              · exfalso
                rw [hasStrictTrigger] at h
                simp [h1, h2, h3, h4, h5, h6] at h

/-- Witness for the universal part of C7 (amended): a command whose trimmed
form contains `>` is rejected with one of the structural messages. -/
theorem detectNonReadonly_trigger_rejects_witness :
    ∃ m, detectNonReadonlyL "cat x > y".data = some m ∧
      m ∈ ["multiline commands are blocked in strict safe mode",
           "command chaining operators are blocked in strict safe mode",
           "command substitution is blocked in strict safe mode",
           "stderr pipe redirection is blocked in strict safe mode",
           "output redirection is blocked in strict safe mode",
           "advanced redirection is blocked in strict safe mode"] :=
  detectNonReadonly_trigger_rejects.1 "cat x > y" (by decide)

/-! ## Claim C9: tokenization failures are ordinary classification results -/

/-- Dropping an all-clear prefix of segments does not change the first
violation. -/
theorem firstViolation_append (pre : List (List Char))
    (h : ∀ s ∈ pre, segCheck s = none) (rest : List (List Char)) :
    firstViolation (pre ++ rest) = firstViolation rest := by
  induction pre with
  | nil => rfl
  | cons x xs ih =>
    have hx : segCheck x = none := h x (by simp)
    have hxs : ∀ s ∈ xs, segCheck s = none := fun s hs => h s (by simp [hs])
    simp [firstViolation, hx, ih hxs]

/-- Claim C9: in strict mode, a pipe segment that cannot be shell-tokenized
(unbalanced quotes / trailing escape) or that tokenizes to nothing yields the
ordinary violation value `"unable to parse command segment"` resp.
`"empty command segment"` — it is returned, not raised, provided the command
passed the structural checks and every earlier segment was clear. -/
theorem detectNonReadonly_tokenization_fault :
    ∀ (cmd : String) (pre post : List (List Char)) (seg : List Char),
      (pyStrip cmd.data).isEmpty = false →
      hasStrictTrigger (pyStrip cmd.data) = false →
      (pySplitOn '|' (pyStrip cmd.data)).map pyStrip = pre ++ seg :: post →
      (∀ s ∈ pre, segCheck s = none) →
      (shlexSplit seg = none →
        detectNonReadonlyL cmd.data = some "unable to parse command segment") ∧
      (shlexSplit seg = some [] →
        detectNonReadonlyL cmd.data = some "empty command segment") := by
  intro cmd pre post seg hne htr hsplit hpre
  rw [hasStrictTrigger] at htr
  simp only [Bool.or_eq_false_iff] at htr
  obtain ⟨⟨⟨⟨⟨t1, t2⟩, t3⟩, t4⟩, t5⟩, t6⟩ := htr
  have hchain : detectNonReadonlyL cmd.data =
      firstViolation ((pySplitOn '|' (pyStrip cmd.data)).map pyStrip) := by
    simp [detectNonReadonlyL, hne, t1, t2, t3, t4, t5, t6]
  rw [hchain, hsplit, firstViolation_append pre hpre]
  constructor
  · intro hsl
    simp [firstViolation, segCheck, extractExecutable, hsl]
  · intro hsl
    simp [firstViolation, segCheck, extractExecutable, hsl]

/-- Witness for C9 at concrete commands: an unbalanced quote in the second
segment of `ls | 'x`, and an empty middle segment in `ls | | wc`. -/
theorem detectNonReadonly_tokenization_fault_witness :
    detectNonReadonlyL "ls | 'x".data = some "unable to parse command segment" ∧
    detectNonReadonlyL "ls | | wc".data = some "empty command segment" :=
  ⟨(detectNonReadonly_tokenization_fault "ls | 'x" ["ls".data] []
      "'x".data (by decide) (by decide) (by decide) (by decide)).1 (by decide),
   (detectNonReadonly_tokenization_fault "ls | | wc" ["ls".data] ["wc".data]
      [] (by decide) (by decide) (by decide) (by decide)).2 (by decide)⟩

/-! ## Claim C8: anchoring of the destructive patterns

`anchorPosB s i` says position `i` of `s` is *anchored*: it is the start of
the string, or it is preceded by a command separator (`;`, `&`, `|`) with only
whitespace in between (the whitespace is absorbed by the anchor group's `\s*`;
each pattern body also starts with its own `\s*`).  `anchoredHitB` says some
anchored pattern body matches at some anchored position. -/

/-- The character just before position `i` (`none` at the start). -/
def prevAt (s : List Char) (i : Nat) : Option Char :=
  ((s.take i).reverse).head?

/-- Position `i` is the start of the string or preceded by a separator
followed only by whitespace. -/
def anchorPosB (s : List Char) (i : Nat) : Bool :=
  i == 0 ||
    (match (s.take i).reverse.dropWhile isPyWs with
     | c :: _ => isSepC c
     | [] => false)

/-- Some body of the nine anchored destructive patterns matches at some
anchored position of `s` (run with the same fuel budget the corresponding
search uses). -/
def anchoredHitB (s : List Char) : Bool :=
  (List.range (s.length + 1)).any (fun i =>
    anchorPosB s i &&
      dBodies.any (fun b =>
        !(mrun (mfuel (.seq anchorR b) s) b (prevAt s i) (s.drop i)).isEmpty))

/-- As `anchoredHitB`, but additionally counting the fork-bomb pattern as a
body (used to state the counterexample against the original claim). -/
def anchoredHitAllB (s : List Char) : Bool :=
  (List.range (s.length + 1)).any (fun i =>
    anchorPosB s i &&
      (dBodies ++ [dPat10]).any (fun b =>
        !(mrun (mfuel (.seq anchorR b) s) b (prevAt s i) (s.drop i)).isEmpty))

/-- Matching results only grow with the fuel budget. -/
theorem mrun_mono :
    ∀ (f : Nat) (r : Rgx) (p : Option Char) (l : List Char) (c : Cand) (f' : Nat),
      f ≤ f' → c ∈ mrun f r p l → c ∈ mrun f' r p l := by
  intro f
  induction f with
  | zero =>
    intro r p l c f' _ hc
    simp [mrun] at hc
  | succ g ih =>
    intro r p l c f' hf hc
    obtain ⟨g', rfl⟩ : ∃ g', f' = g' + 1 := ⟨f' - 1, by omega⟩
    have hg : g ≤ g' := by omega
    cases r with
    | eps => rw [mrun] at hc ⊢; exact hc
    | cls pc => rw [mrun] at hc ⊢; exact hc
    | seq a b =>
      rw [mrun] at hc ⊢
      simp only [List.mem_flatMap, List.mem_map] at hc ⊢
      obtain ⟨c1, hc1, c2, hc2, rfl⟩ := hc
      exact ⟨c1, ih a p l c1 g' hg hc1, c2, ih b c1.prev c1.rest c2 g' hg hc2, rfl⟩
    | alt a b =>
      rw [mrun] at hc ⊢
      rcases List.mem_append.mp hc with h | h
      · exact List.mem_append.mpr (Or.inl (ih a p l c g' hg h))
      · exact List.mem_append.mpr (Or.inr (ih b p l c g' hg h))
    | star a =>
      rw [mrun] at hc ⊢
      rcases List.mem_append.mp hc with h | h
      · simp only [List.mem_flatMap] at h
        obtain ⟨c1, hc1, hmem⟩ := h
        by_cases hlt : c1.rest.length < l.length
        · rw [if_pos hlt] at hmem
          simp only [List.mem_map] at hmem
          obtain ⟨c2, hc2, rfl⟩ := hmem
          refine List.mem_append.mpr (Or.inl ?_)
          simp only [List.mem_flatMap]
          refine ⟨c1, ih a p l c1 g' hg hc1, ?_⟩
          rw [if_pos hlt]
          exact List.mem_map.mpr ⟨c2, ih (.star a) c1.prev c1.rest c2 g' hg hc2, rfl⟩
        · rw [if_neg hlt] at hmem
          simp at hmem
      · exact List.mem_append.mpr (Or.inr h)
    | wordB => rw [mrun] at hc ⊢; exact hc
    | bos => rw [mrun] at hc ⊢; exact hc
    | eos => rw [mrun] at hc ⊢; exact hc
    | look a =>
      rw [mrun] at hc ⊢
      by_cases he : (mrun g a p l).isEmpty
      · rw [if_pos he] at hc
        simp at hc
      · rw [if_neg he] at hc
        have hne : ¬(mrun g' a p l).isEmpty := by
          cases hx : mrun g a p l with
          | nil => rw [hx] at he; simp at he
          | cons y ys =>
            have hy : y ∈ mrun g' a p l :=
              ih a p l y g' hg (by rw [hx]; exact List.mem_cons_self y ys)
            intro hcon
            rw [List.isEmpty_iff] at hcon
            rw [hcon] at hy
            exact absurd hy (List.not_mem_nil y)
        rw [if_neg hne]
        exact hc
    | grp m a =>
      rw [mrun] at hc ⊢
      simp only [List.mem_map] at hc ⊢
      obtain ⟨c1, hc1, rfl⟩ := hc
      exact ⟨c1, ih a p l c1 g' hg hc1, rfl⟩

/-- A nonempty candidate list stays nonempty when the fuel grows. -/
theorem mrun_ne_nil_mono (f f' : Nat) (r : Rgx) (p : Option Char) (l : List Char)
    (hle : f ≤ f') (h : mrun f r p l ≠ []) : mrun f' r p l ≠ [] := by
  cases hx : mrun f r p l with
  | nil => exact absurd hx h
  | cons y ys =>
    have hy : y ∈ mrun f' r p l :=
      mrun_mono f r p l y f' hle (by rw [hx]; exact List.mem_cons_self y ys)
    intro hcon
    rw [hcon] at hy
    exact absurd hy (List.not_mem_nil y)

/-- A successful scan yields a position at which the pattern matches, with
the correct preceding-character context. -/
theorem scanB_true_decomp :
    ∀ (t : List Char) (fuel : Nat) (r : Rgx) (p : Option Char),
      scanB fuel r p t = true →
      ∃ j, j ≤ t.length ∧
        mrun fuel r
          (match (t.take j).reverse.head? with
           | some y => some y
           | none => p) (t.drop j) ≠ [] := by
  intro t
  induction t with
  | nil =>
    intro fuel r p h
    rw [scanB] at h
    refine ⟨0, Nat.le_refl 0, ?_⟩
    intro hnil
    simp only [List.take_zero, List.reverse_nil, List.head?_nil, List.drop_zero] at hnil
    rw [hnil] at h
    simp at h
  | cons c t ih =>
    intro fuel r p h
    rw [scanB] at h
    rcases Bool.or_eq_true_iff.mp h with h1 | h2
    · refine ⟨0, Nat.zero_le _, ?_⟩
      intro hnil
      simp only [List.take_zero, List.reverse_nil, List.head?_nil, List.drop_zero] at hnil
      rw [hnil] at h1
      simp at h1
    · obtain ⟨j, hj, hm⟩ := ih fuel r (some c) h2
      refine ⟨j + 1, by simpa using Nat.succ_le_succ hj, ?_⟩
      have hshift :
          (((c :: t).take (j + 1)).reverse.head?) =
            (match (t.take j).reverse.head? with
             | some y => some y
             | none => some c) := by
        rw [List.take_succ_cons, List.reverse_cons]
        cases hr : (t.take j).reverse with
        | nil => simp
        | cons y ys => simp
      rw [List.drop_succ_cons, hshift]
      cases hr : (t.take j).reverse.head? with
      | none => rw [hr] at hm; simpa using hm
      | some y => rw [hr] at hm; simpa using hm

/-- Candidates of a starred character class consume exactly a run of
class characters, and report the correct preceding character. -/
theorem star_cls_decomp :
    ∀ (f : Nat) (p : Char → Bool) (pr : Option Char) (l : List Char) (c : Cand),
      c ∈ mrun f (.star (.cls p)) pr l →
      ∃ w, l = w ++ c.rest ∧ (∀ x ∈ w, p x = true) ∧
        c.prev = (match w.reverse.head? with
                  | some y => some y
                  | none => pr) := by
  intro f
  induction f with
  | zero =>
    intro p pr l c hc
    simp [mrun] at hc
  | succ g ih =>
    intro p pr l c hc
    rw [mrun] at hc
    rcases List.mem_append.mp hc with h | h
    · simp only [List.mem_flatMap] at h
      obtain ⟨c1, hc1, hmem⟩ := h
      cases g with
      | zero => simp [mrun] at hc1
      | succ g2 =>
        rw [mrun] at hc1
        cases l with
        | nil => simp [clsCands] at hc1
        | cons x t =>
          rw [clsCands] at hc1
          by_cases hp : p x
          · rw [if_pos hp] at hc1
            simp at hc1
            subst hc1
            rw [if_pos (by simp)] at hmem
            simp only [List.mem_map] at hmem
            obtain ⟨c2, hc2, rfl⟩ := hmem
            obtain ⟨w2, hw1, hw2, hw3⟩ := ih p (some x) t c2 hc2
            refine ⟨x :: w2, by simp [hw1], ?_, ?_⟩
            · intro y hy
              rcases List.mem_cons.mp hy with rfl | hy2
              · exact hp
              · exact hw2 y hy2
            · show c2.prev = _
              rw [hw3, List.reverse_cons]
              cases hr : w2.reverse with
              | nil => simp
              | cons z zs => simp
          · rw [if_neg hp] at hc1
            simp at hc1
    · simp at h
      subst h
      exact ⟨[], rfl, by intro x hx; simp at hx, by simp⟩

/-- A command separator is not whitespace. -/
theorem sep_not_ws (c : Char) (h : isSepC c = true) : isPyWs c = false := by
  have h2 : (c = ';' ∨ c = '&') ∨ c = '|' := by
    simpa [isSepC, Bool.or_eq_true, decide_eq_true_eq] using h
  rcases h2 with (rfl | rfl) | rfl <;> rfl

/-- `dropWhile` skips a block of characters that all satisfy the predicate. -/
theorem dropWhile_all_append (p : Char → Bool) (A B : List Char)
    (h : ∀ x ∈ A, p x = true) : (A ++ B).dropWhile p = B.dropWhile p := by
  induction A with
  | nil => rfl
  | cons x xs ih =>
    have hx : p x = true := h x (List.mem_cons_self x xs)
    rw [List.cons_append, List.dropWhile_cons, if_pos hx]
    exact ih (fun y hy => h y (List.mem_cons_of_mem x hy))

/-- Splitting a string at an anchored occurrence: if dropping `j` characters
exposes `ch :: (w ++ rest)`, then position `j + 1 + w.length` splits the
string as `take j ++ ch :: w` before and `rest` after. -/
theorem split_at_anchor (n : List Char) (j : Nat) (hj : j ≤ n.length)
    (ch : Char) (w rest : List Char) (hd : n.drop j = ch :: (w ++ rest)) :
    n.take (j + 1 + w.length) = n.take j ++ ch :: w ∧
    n.drop (j + 1 + w.length) = rest ∧
    j + 1 + w.length ≤ n.length := by
  have hn : n = n.take j ++ (ch :: (w ++ rest)) := by
    conv_lhs => rw [← List.take_append_drop j n]
    rw [hd]
  have htl : (n.take j).length = j := by
    rw [List.length_take]
    omega
  have hlen : n.length = j + (1 + (w.length + rest.length)) := by
    have hcong := congrArg List.length hn
    simp [List.length_append, htl] at hcong
    omega
  have hsplit : ch :: (w ++ rest) = (ch :: w) ++ rest := by simp
  have harith : j + 1 + w.length = (n.take j).length + (ch :: w).length := by
    simp [htl, List.length_cons]
    omega
  refine ⟨?_, ?_, by omega⟩
  · conv_lhs => rw [hn, hsplit, harith]
    rw [List.take_append]
    rw [List.take_left]
  · conv_lhs => rw [hn, hsplit, harith]
    rw [List.drop_append]
    rw [List.drop_left]

/-- Soundness of the anchor: a successful search for an anchored pattern
`(^|[;&|]\s*)` + body yields an anchored position where the body matches. -/
theorem search_anchor_decomp (b : Rgx) (n : List Char)
    (h : searchB (.seq anchorR b) n = true) :
    ∃ i, i ≤ n.length ∧ anchorPosB n i = true ∧
      mrun (mfuel (.seq anchorR b) n) b (prevAt n i) (n.drop i) ≠ [] := by
  rw [searchB] at h
  obtain ⟨j, hj, hm⟩ := scanB_true_decomp n (mfuel (.seq anchorR b) n) (.seq anchorR b) none h
  have hprev : (match (n.take j).reverse.head? with
      | some y => some y
      | none => (none : Option Char)) = prevAt n j := by
    rw [prevAt]
    cases hr : (n.take j).reverse.head? <;> simp
  rw [hprev] at hm
  have hF : 4 ≤ mfuel (.seq anchorR b) n := by
    rw [mfuel]
    calc 4 = 2 * 2 := rfl
    _ ≤ (rsize (.seq anchorR b) + 2) * (n.length + 2) :=
      Nat.mul_le_mul (by omega) (by omega)
  obtain ⟨F4, hF4⟩ : ∃ F4, mfuel (.seq anchorR b) n = F4 + 4 :=
    ⟨mfuel (.seq anchorR b) n - 4, by omega⟩
  rw [hF4] at hm
  rw [mrun] at hm
  obtain ⟨x, hx⟩ := List.exists_mem_of_ne_nil _ hm
  simp only [List.mem_flatMap, List.mem_map] at hx
  obtain ⟨c1, hc1, c2, hc2, hxeq⟩ := hx
  have hmb : mrun (F4 + 3) b c1.prev c1.rest ≠ [] := List.ne_nil_of_mem hc2
  rw [anchorR, mrun] at hc1
  rcases List.mem_append.mp hc1 with hbos | hsep
  · rw [mrun] at hbos
    by_cases hpj : (prevAt n j).isNone
    · rw [if_pos hpj] at hbos
      simp at hbos
      have hj0 : j = 0 := by
        rw [prevAt, Option.isNone_iff_eq_none, List.head?_eq_none_iff,
          List.reverse_eq_nil_iff] at hpj
        rcases List.take_eq_nil_iff.mp hpj with h0 | h0
        · exact h0
        · rw [h0, List.length_nil] at hj
          omega
      subst hj0
      refine ⟨0, Nat.zero_le _, by simp [anchorPosB], ?_⟩
      rw [hF4]
      apply mrun_ne_nil_mono (F4 + 3) (F4 + 4) _ _ _ (by omega)
      rw [hbos] at hmb
      simpa using hmb
    · rw [if_neg hpj] at hbos
      simp at hbos
  · rw [mrun] at hsep
    simp only [List.mem_flatMap, List.mem_map] at hsep
    obtain ⟨cS, hcS, cW, hcW, hc1eq⟩ := hsep
    rw [mrun] at hcS
    cases hd : n.drop j with
    | nil =>
      rw [hd] at hcS
      simp [clsCands] at hcS
    | cons ch t =>
      rw [hd] at hcS
      rw [clsCands] at hcS
      by_cases hsc : isSepC ch = true
      · rw [if_pos hsc] at hcS
        simp at hcS
        subst hcS
        obtain ⟨w, hw1, hw2, hw3⟩ := star_cls_decomp (F4 + 1) isPyWs (some ch) t cW hcW
        obtain ⟨htake, hdrop2, hile⟩ :=
          split_at_anchor n j hj ch w cW.rest (by rw [hd, hw1])
        have hprevi : prevAt n (j + 1 + w.length) = cW.prev := by
          rw [prevAt, htake, List.reverse_append, List.reverse_cons, hw3]
          cases hr : w.reverse with
          | nil => simp [hr]
          | cons z zs => simp [hr]
        have hanch : anchorPosB n (j + 1 + w.length) = true := by
          rw [anchorPosB]
          have hwrev : ∀ x ∈ w.reverse, isPyWs x = true :=
            fun x hx => hw2 x (List.mem_reverse.mp hx)
          rw [htake, List.reverse_append, List.reverse_cons, List.append_assoc,
            dropWhile_all_append isPyWs w.reverse _ hwrev, List.singleton_append,
            List.dropWhile_cons, if_neg (by rw [sep_not_ws ch hsc]; simp)]
          simp [hsc]
        refine ⟨j + 1 + w.length, hile, hanch, ?_⟩
        rw [hF4]
        apply mrun_ne_nil_mono (F4 + 3) (F4 + 4) _ _ _ (by omega)
        rw [hprevi, hdrop2]
        have hp1 : c1.prev = cW.prev := by rw [← hc1eq]
        have hp2 : c1.rest = cW.rest := by rw [← hc1eq]
        rw [hp1, hp2] at hmb
        exact hmb
      · rw [if_neg hsc] at hcS
        simp at hcS

/-- A successful anchored-pattern search certifies an anchored hit. -/
theorem anchoredHit_of_search (b : Rgx) (hb : b ∈ dBodies) (n : List Char)
    (hs : searchB (.seq anchorR b) n = true) : anchoredHitB n = true := by
  obtain ⟨i, hi, ha, hm⟩ := search_anchor_decomp b n hs
  rw [anchoredHitB]
  apply List.any_eq_true.mpr
  refine ⟨i, List.mem_range.mpr (by omega), ?_⟩
  apply Bool.and_eq_true_iff.mpr
  refine ⟨ha, List.any_eq_true.mpr ⟨b, hb, ?_⟩⟩
  cases hx : mrun (mfuel (.seq anchorR b) n) b (prevAt n i) (n.drop i) with
  | nil => exact absurd hx hm
  | cons y ys => simp [hx]

/-- Counterexample for C8 as stated: the fork-bomb pattern carries no anchor,
so `echo :(){ :|:&};:` is flagged although no destructive pattern body occurs
at the start of the trimmed command or after a separator. -/
theorem detectDestructive_forkbomb_unanchored :
    detectDestructiveS "echo :(){ :|:&};:" = some "fork bomb pattern" ∧
    anchoredHitAllB (pyStrip "echo :(){ :|:&};:".data) = false := by
  exact ⟨by decide, by decide⟩

/-- Claim C8 (amended): the first nine destructive patterns are anchored —
whenever `detect_destructive_command` flags a command with any reason other
than `"fork bomb pattern"`, the matched pattern body occurs at an anchored
position of the trimmed command (its start, or right after a `;`/`&`/`|`
separator modulo whitespace); the fork-bomb pattern alone matches anywhere. -/
theorem detectDestructive_anchored (l : List Char) (r : String)
    (h : detectDestructiveL l = some r) (hr : r ≠ "fork bomb pattern") :
    anchoredHitB (pyStrip l) = true := by
  by_cases h0 : (pyStrip l).isEmpty = true
  · rw [detectDestructiveL] at h
    simp [h0] at h
  · by_cases s1 : searchB (.seq anchorR dBody1) (pyStrip l) = true
    · exact anchoredHit_of_search dBody1 (by simp [dBodies]) _ s1
    · by_cases s2 : searchB (.seq anchorR dBody2) (pyStrip l) = true
      · exact anchoredHit_of_search dBody2 (by simp [dBodies]) _ s2
      · by_cases s3 : searchB (.seq anchorR dBody3) (pyStrip l) = true
        · exact anchoredHit_of_search dBody3 (by simp [dBodies]) _ s3
        · by_cases s4 : searchB (.seq anchorR dBody4) (pyStrip l) = true
          · exact anchoredHit_of_search dBody4 (by simp [dBodies]) _ s4
          · by_cases s5 : searchB (.seq anchorR dBody5) (pyStrip l) = true
            · exact anchoredHit_of_search dBody5 (by simp [dBodies]) _ s5
            · by_cases s6 : searchB (.seq anchorR dBody6) (pyStrip l) = true
              · exact anchoredHit_of_search dBody6 (by simp [dBodies]) _ s6
              · by_cases s7 : searchB (.seq anchorR dBody7) (pyStrip l) = true
                · exact anchoredHit_of_search dBody7 (by simp [dBodies]) _ s7
                · by_cases s8 : searchB (.seq anchorR dBody8) (pyStrip l) = true
                  · exact anchoredHit_of_search dBody8 (by simp [dBodies]) _ s8
                  · by_cases s9 : searchB (.seq anchorR dBody9) (pyStrip l) = true
                    · exact anchoredHit_of_search dBody9 (by simp [dBodies]) _ s9
                    · exfalso
                      rw [detectDestructiveL] at h
                      simp only [h0, Bool.false_eq_true, if_false,
                        destructivePatterns, List.findSome?, s1, s2, s3, s4, s5,
                        s6, s7, s8, s9, if_false] at h
                      by_cases s10 : searchB dPat10 (pyStrip l) = true
                      · rw [if_pos s10] at h
                        simp at h
                        exact hr h.symm
                      · rw [if_neg s10] at h
                        simp at h

/-- Witness for C8 (amended): `; rm -rf x` is flagged for recursive/force
`rm`, and indeed an anchored occurrence exists. -/
theorem detectDestructive_anchored_witness :
    anchoredHitB (pyStrip "; rm -rf x".data) = true :=
  detectDestructive_anchored "; rm -rf x".data "rm with recursive/force options"
    (by decide) (by decide)
